import Mathlib

/-! Verification of the core logic of the project-tracker application
(`src/main.py`): row-level authorization (`can_edit`, `is_admin`), the add
gate, iCalendar export, spreadsheet persistence, delete re-packing, the
filter pipeline, and the GitHub remote-sync control flow.

Python string operations are modelled over `List Char`: `str.lower` as an
ASCII case map, `str.strip` as trimming whitespace at both ends, and
`str.split(",")` as comma splitting that yields `[""]` on the empty string,
matching CPython semantics on the inputs the application handles.
-/

namespace ProjectTracker

/-- The ASCII upper-to-lower case table. -/
def upperToLowerTable : List (Char × Char) :=
  [('A', 'a'), ('B', 'b'), ('C', 'c'), ('D', 'd'), ('E', 'e'), ('F', 'f'),
   ('G', 'g'), ('H', 'h'), ('I', 'i'), ('J', 'j'), ('K', 'k'), ('L', 'l'),
   ('M', 'm'), ('N', 'n'), ('O', 'o'), ('P', 'p'), ('Q', 'q'), ('R', 'r'),
   ('S', 's'), ('T', 't'), ('U', 'u'), ('V', 'v'), ('W', 'w'), ('X', 'x'),
   ('Y', 'y'), ('Z', 'z')]

/-- Python `str.lower` on one character (ASCII range, as used for usernames
and team tokens in the application). -/
def pyLowerChar (c : Char) : Char :=
  match upperToLowerTable.find? (fun p => p.1 == c) with
  | some p => p.2
  | none => c

/-- Python `str.lower` on a string. -/
def pyLowerStr (s : String) : String :=
  ⟨s.data.map pyLowerChar⟩

/-- Python's whitespace test used by `str.strip`. -/
def isPyWs (c : Char) : Bool :=
  c = ' ' || c = '\t' || c = '\n' || c = '\r' || c = '\x0b' || c = '\x0c'

/-- Python `str.strip` on a character list: drop whitespace at both ends. -/
def pyStripChars (l : List Char) : List Char :=
  ((l.dropWhile isPyWs).reverse.dropWhile isPyWs).reverse

/-- Python `str.strip`. -/
def pyStrip (s : String) : String :=
  ⟨pyStripChars s.data⟩

/-- Python `str.split(",")` on a character list; the empty input yields `[[]]`,
as in Python where `"".split(",") == [""]`. -/
def splitCommaChars : List Char → List (List Char)
  | [] => [[]]
  | c :: cs =>
    if c = ',' then [] :: splitCommaChars cs
    else
      match splitCommaChars cs with
      | [] => [[c]]
      | t :: ts => (c :: t) :: ts

/-- Python `str.split(",")`. -/
def pySplitComma (s : String) : List String :=
  (splitCommaChars s.data).map (fun l => (⟨l⟩ : String))

/-- The session state holding the authenticated identity
(`st.session_state["auth_user"]` / `["auth_role"]`). -/
structure Session where
  auth_user : String
  auth_role : String
deriving DecidableEq

/-- The function `is_admin()` from `src/main.py`: the session role equals `"admin"`. -/
def is_admin (s : Session) : Bool :=
  s.auth_role == "admin"

/-- The function `current_user()` from `src/main.py`. -/
def current_user (s : Session) : String :=
  s.auth_user

/-- The edit/delete authorization check of `src/main.py` (line 310):
`is_admin() or (user and user in [u.strip().lower() for u in
row_team.split(",") if u.strip()])` where `row_team` is the record's
`Project Team` string lower-cased and `user = current_user().lower()`. -/
def can_edit (s : Session) (team : String) : Bool :=
  let row_team := pyLowerStr team
  let user := pyLowerStr (current_user s)
  is_admin s ||
    (user ≠ "" &&
      (((pySplitComma row_team).filter (fun u => pyStrip u ≠ "")).map
        (fun u => pyLowerStr (pyStrip u))).contains user)

/-- The token set described by the specification: split the team string on
commas, trim whitespace from each token, lower-case it, and keep the
non-empty tokens. -/
def team_tokens (team : String) : List String :=
  ((pySplitComma team).map (fun t => pyLowerStr (pyStrip t))).filter
    (fun t => t ≠ "")

/-- A calendar date, as handled by `pd.to_datetime` for well-formed cells. -/
structure Date where
  year : Nat
  month : Nat
  day : Nat
deriving DecidableEq

/-- Gregorian leap-year rule (as implemented by the `datetime` machinery
underlying `pd.to_datetime` and `timedelta`). -/
def isLeapYear (y : Nat) : Bool :=
  (y % 4 == 0 && y % 100 != 0) || (y % 400 == 0)

/-- Number of days in a month of the Gregorian calendar. -/
def daysInMonth (y m : Nat) : Nat :=
  if m = 2 then (if isLeapYear y then 29 else 28)
  else if m = 4 || m = 6 || m = 9 || m = 11 then 30
  else 31

/-- The effect of `pd.to_datetime(d) + timedelta(days=1)` on a calendar date: the next
calendar day. -/
def nextDay (d : Date) : Date :=
  if d.day < daysInMonth d.year d.month then ⟨d.year, d.month, d.day + 1⟩
  else if d.month < 12 then ⟨d.year, d.month + 1, 1⟩
  else ⟨d.year + 1, 1, 1⟩

/-- Left-pad a numeral to two digits, as `strftime` does for `%m` / `%d`. -/
def pad2 (n : Nat) : String :=
  if n < 10 then "0" ++ Nat.repr n else Nat.repr n

/-- Left-pad a numeral to four digits, as `strftime` does for `%Y`. -/
def pad4 (n : Nat) : String :=
  if n < 10 then "000" ++ Nat.repr n
  else if n < 100 then "00" ++ Nat.repr n
  else if n < 1000 then "0" ++ Nat.repr n
  else Nat.repr n

/-- The function `date_to_ics` from `src/main.py`: format a date as `YYYYMMDD`
(`strftime("%Y%m%d")`). -/
def date_to_ics (d : Date) : String :=
  pad4 d.year ++ pad2 d.month ++ pad2 d.day

/-- One row of the project registry. Textual cells and the year are
optional, modelling missing (`NaN`) spreadsheet cells; the two date cells
are well-formed dates (the calendar claims assume well-formed records). -/
structure Row where
  year : Option Int
  projectCode : Option String
  projectName : Option String
  location : Option String
  projectStart : Date
  projectEnd : Date
  projectTeam : Option String
deriving DecidableEq

/-- Python `str(...)` of a possibly-missing cell: a missing value (`NaN`)
renders as `"nan"` inside f-strings. -/
def pyStrCell : Option String → String
  | some s => s
  | none => "nan"

/-- The fixed `VCALENDAR` header lines shared by both ICS generators. -/
def calHeader : List String :=
  ["BEGIN:VCALENDAR", "VERSION:2.0", "PRODID:-//Project Tracker Pro//EN"]

/-- The nine `VEVENT` lines emitted for one record (`now` stands for the
`pd.Timestamp.utcnow()` DTSTAMP text, an impure input passed explicitly). -/
def event_lines (now : String) (r : Row) : List String :=
  ["BEGIN:VEVENT",
   "UID:" ++ pyStrCell r.projectCode ++ "@project-tracker",
   "DTSTAMP:" ++ now,
   "DTSTART;VALUE=DATE:" ++ date_to_ics r.projectStart,
   "DTEND;VALUE=DATE:" ++ date_to_ics (nextDay r.projectEnd),
   "SUMMARY:" ++ pyStrCell r.projectCode ++ " - " ++ pyStrCell r.projectName,
   "LOCATION:" ++ pyStrCell r.location,
   "DESCRIPTION:Team: " ++ pyStrCell r.projectTeam,
   "END:VEVENT"]

/-- The lines of `make_ics_for_row` from `src/main.py`. -/
def make_ics_row_lines (now : String) (r : Row) : List String :=
  calHeader ++ event_lines now r ++ ["END:VCALENDAR"]

/-- Join lines with a trailing newline each, as the Python string
concatenation does. -/
def joinLines (ls : List String) : String :=
  String.join (ls.map (fun l => l ++ "\n"))

/-- The function `make_ics_for_row` from `src/main.py` (the returned text; the source
additionally UTF-8-encodes it). -/
def make_ics_for_row (now : String) (r : Row) : String :=
  joinLines (make_ics_row_lines now r)

/-- The lines of `make_ics_for_dataframe` from `src/main.py`: one header,
nine `VEVENT` lines per row, one footer. -/
def make_ics_df_lines (now : String) (df : List Row) : List String :=
  calHeader ++ df.flatMap (event_lines now) ++ ["END:VCALENDAR"]

/-- The function `make_ics_for_dataframe` from `src/main.py`. -/
def make_ics_for_dataframe (now : String) (df : List Row) : String :=
  joinLines (make_ics_df_lines now df)

/-- One spreadsheet cell value. -/
inductive Cell where
  | intC (i : Int)
  | strC (s : String)
  | dateC (d : Date)
  | blank
deriving DecidableEq

/-- The fixed, ordered column schema of the registry. -/
def COLUMNS : List String :=
  ["Year", "Project Code", "Project Name", "Location",
   "Project Start", "Project End", "Project Team"]

/-- Encode one record as a spreadsheet row under the fixed column order. -/
def rowToCells (r : Row) : List Cell :=
  [(match r.year with | some y => Cell.intC y | none => Cell.blank),
   (match r.projectCode with | some s => Cell.strC s | none => Cell.blank),
   (match r.projectName with | some s => Cell.strC s | none => Cell.blank),
   (match r.location with | some s => Cell.strC s | none => Cell.blank),
   Cell.dateC r.projectStart,
   Cell.dateC r.projectEnd,
   (match r.projectTeam with | some s => Cell.strC s | none => Cell.blank)]

/-- Decode an optional integer cell. -/
def cellOptInt : Cell → Option (Option Int)
  | .intC i => some (some i)
  | .blank => some none
  | _ => none

/-- Decode an optional string cell. -/
def cellOptStr : Cell → Option (Option String)
  | .strC s => some (some s)
  | .blank => some none
  | _ => none

/-- Decode a date cell. -/
def cellDate : Cell → Option Date
  | .dateC d => some d
  | _ => none

/-- Decode one spreadsheet row back into a record. -/
def cellsToRow : List Cell → Option Row
  | [y, c, n, l, s, e, t] =>
    match cellOptInt y, cellOptStr c, cellOptStr n, cellOptStr l,
          cellDate s, cellDate e, cellOptStr t with
    | some yy, some cc, some nn, some ll, some ss, some ee, some tt =>
      some ⟨yy, cc, nn, ll, ss, ee, tt⟩
    | _, _, _, _, _, _, _ => none
  | _ => none

/-- The persisted spreadsheet: sheet name, header row, data rows. -/
structure XlsxFile where
  sheet : String
  header : List String
  rows : List (List Cell)
deriving DecidableEq

/-- Modelled from the spec: `save_data` writes the table through
`df.to_excel(EXCEL_FILE, sheet_name="Projects", index=False)`; the Excel
codec itself (pandas/openpyxl) is outside the repository, so the persisted
file is modelled as a faithful tabular container holding the sheet name,
the fixed column header, and the cell rows. -/
def save_data (records : List Row) : XlsxFile :=
  ⟨"Projects", COLUMNS, records.map rowToCells⟩

/-- Decode the data rows in order; fail on the first malformed row. -/
def decodeRows : List (List Cell) → Option (List Row)
  | [] => some []
  | cs :: rest =>
    match cellsToRow cs, decodeRows rest with
    | some r, some rs => some (r :: rs)
    | _, _ => none

/-- Modelled from the spec: `load_data` reads the table back through
`pd.read_excel(EXCEL_FILE, sheet_name="Projects")`; decoding fails (`none`)
on a shape or type mismatch. -/
def load_data (f : XlsxFile) : Option (List Row) :=
  if f.sheet = "Projects" ∧ f.header = COLUMNS then decodeRows f.rows
  else none

/-- The delete handler of `src/main.py` (line 346):
`df.drop(index=row_idx).reset_index(drop=True)`. In a freshly loaded frame
the row label equals the ordinal position, so dropping label `row_idx` and
re-indexing is erasure at that position. -/
def do_delete (df : List Row) (row_idx : Nat) : List Row :=
  df.eraseIdx row_idx

/-- The three sidebar filter settings; `none` models the sentinel
`"All"` in the year and location select boxes. -/
structure Filters where
  year_filter : Option Int
  location_filter : Option String
  code_query : String
deriving DecidableEq

/-- The year filter step (`filtered[filtered["Year"] == year]`): a missing
year cell compares unequal, as with pandas `NaN`. -/
def applyYear : Option Int → List Row → List Row
  | none, df => df
  | some n, df => df.filter (fun r => decide (r.year = some n))

/-- The location filter step (`filtered[filtered["Location"] == loc]`). -/
def applyLocation : Option String → List Row → List Row
  | none, df => df
  | some s, df => df.filter (fun r => decide (r.location = some s))

/-- The active year predicate: the sentinel (`none`, i.e. "All")
deactivates it. -/
def yearPred (yf : Option Int) (r : Row) : Bool :=
  match yf with
  | none => true
  | some n => decide (r.year = some n)

/-- The active location predicate: the sentinel deactivates it. -/
def locPred (lf : Option String) (r : Row) : Bool :=
  match lf with
  | none => true
  | some s => decide (r.location = some s)

/-- A regular-expression pattern, as compiled by Python `re` for the query
argument of `Series.str.contains` (whose default is `regex=True`). The
modelled fragment: literals, `.`, greedy and lazy `*` `+` `?`, grouping,
alternation, and character classes with ranges and negation. -/
inductive Regex where
  | emptyPat
  | eps
  | char (c : Char)
  | anyChar
  | cls (neg : Bool) (ranges : List (Char × Char))
  | cat (r1 r2 : Regex)
  | alt (r1 r2 : Regex)
  | star (r : Regex)
deriving DecidableEq

/-- Whether a pattern matches the empty string. -/
def nullable : Regex → Bool
  | .emptyPat => false
  | .eps => true
  | .char _ => false
  | .anyChar => false
  | .cls _ _ => false
  | .cat r1 r2 => nullable r1 && nullable r2
  | .alt r1 r2 => nullable r1 || nullable r2
  | .star _ => true

/-- Concatenation with simplification of the trivial cases. -/
def smartCat : Regex → Regex → Regex
  | .emptyPat, _ => .emptyPat
  | .eps, r2 => r2
  | r1, r2 => .cat r1 r2

/-- Alternation with simplification of the trivial cases. -/
def smartAlt : Regex → Regex → Regex
  | .emptyPat, r2 => r2
  | r1, .emptyPat => r1
  | r1, r2 => .alt r1 r2

/-- Membership in a character class (a list of inclusive ranges, possibly
negated). -/
def clsMatch (neg : Bool) (ranges : List (Char × Char)) (a : Char) : Bool :=
  let inR := ranges.any (fun p => p.1 ≤ a && a ≤ p.2)
  if neg then !inR else inR

/-- Brzozowski derivative of a pattern by one character. `.` does not match
a newline, as in Python `re` without `DOTALL`. -/
def deriv : Regex → Char → Regex
  | .emptyPat, _ => .emptyPat
  | .eps, _ => .emptyPat
  | .char c, a => if a = c then .eps else .emptyPat
  | .anyChar, a => if a = '\n' then .emptyPat else .eps
  | .cls neg rs, a => if clsMatch neg rs a then .eps else .emptyPat
  | .cat r1 r2, a =>
    if nullable r1 then smartAlt (smartCat (deriv r1 a) r2) (deriv r2 a)
    else smartCat (deriv r1 a) r2
  | .alt r1 r2, a => smartAlt (deriv r1 a) (deriv r2 a)
  | .star r, a => smartCat (deriv r a) (.star r)

/-- Whether the pattern matches some prefix of the text (`re.match`-style
existence at the current position). -/
def prefixMatch : Regex → List Char → Bool
  | r, [] => nullable r
  | r, c :: rest => nullable r || prefixMatch (deriv r c) rest

/-- Whether the pattern matches somewhere in the text (`re.search`
existence: a prefix match at some start position). -/
def reSearch (r : Regex) : List Char → Bool
  | [] => nullable r
  | c :: rest => prefixMatch r (c :: rest) || reSearch r rest

/-- `re.search(pattern, s)` produced a match. -/
def pyReSearch (rx : Regex) (s : String) : Bool :=
  reSearch rx s.data

/-- The regex metacharacters of Python `re` (including the brace
quantifier delimiters, written by code point). -/
def isMetaChar (c : Char) : Bool :=
  c = '.' || c = '*' || c = '+' || c = '?' || c = '|' || c = '(' || c = ')'
  || c = '[' || c = ']' || c = '\\' || c = '^' || c = '$'
  || c.toNat = 123 || c.toNat = 125

/-- Parse the body of a character class after `[` (and after `[^`). A
leading `]` is a literal member (`first`), `a-b` is an inclusive range with
`a > b` rejected as in CPython, a trailing `-` is literal, and a missing
closing `]` is the CPython "unterminated character set" error. Escapes
inside classes are outside the modelled fragment and abstain with an
error. -/
def parseClassItems : Bool → List Char → Except String (List (Char × Char) × List Char)
  | _, [] => Except.error "unterminated character set"
  | first, ']' :: rest =>
    if first then
      match parseClassItems false rest with
      | Except.ok (items, rest2) => Except.ok ((']', ']') :: items, rest2)
      | Except.error e => Except.error e
    else Except.ok ([], rest)
  | _, '\\' :: _ => Except.error "escape in character set not modelled"
  | _, a :: '-' :: ']' :: rest => Except.ok ([(a, a), ('-', '-')], rest)
  | _, a :: '-' :: b :: rest =>
    if b = '\\' then Except.error "escape in character set not modelled"
    else if b < a then Except.error "bad character range"
    else
      match parseClassItems false rest with
      | Except.ok (items, rest2) => Except.ok ((a, b) :: items, rest2)
      | Except.error e => Except.error e
  | _, a :: rest =>
    match parseClassItems false rest with
    | Except.ok (items, rest2) => Except.ok ((a, a) :: items, rest2)
    | Except.error e => Except.error e

/-- After one quantifier: an immediately following `?` is the lazy form
(same match existence), and any further quantifier is the CPython
"multiple repeat" error. -/
def quantTail (r : Regex) : List Char → Except String (Regex × List Char)
  | '?' :: '*' :: _ => Except.error "multiple repeat"
  | '?' :: '+' :: _ => Except.error "multiple repeat"
  | '?' :: '?' :: _ => Except.error "multiple repeat"
  | '?' :: rest => Except.ok (r, rest)
  | '*' :: _ => Except.error "multiple repeat"
  | '+' :: _ => Except.error "multiple repeat"
  | rest => Except.ok (r, rest)

/-- Parse a character class after a leading `[`, peeking for the `^`
negation marker. -/
def parseClassStart : List Char → Except String (Regex × List Char)
  | '^' :: rest2 =>
    (match parseClassItems true rest2 with
     | Except.ok (items, rest3) => Except.ok (Regex.cls true items, rest3)
     | Except.error e => Except.error e)
  | rest =>
    (match parseClassItems true rest with
     | Except.ok (items, rest2) => Except.ok (Regex.cls false items, rest2)
     | Except.error e => Except.error e)

/-! Recursive-descent parser for the modelled Python `re` fragment, fuelled
to make termination structural. `parseAlt` handles `|`, `parseCat`
sequences, `parseQuant` one optional quantifier (with its lazy `?` form; a
second quantifier is the CPython "multiple repeat" error, as before the
3.11 possessive forms), and `parseAtom` literals, `.`, groups, and classes.
Anchors, escapes, braces, and `(?...)` extensions are outside the modelled
fragment and abstain with an error rather than being misrepresented. -/
mutual

def parseAlt : Nat → List Char → Except String (Regex × List Char)
  | 0, _ => Except.error "fuel exhausted"
  | fuel + 1, l =>
    match parseCat fuel l with
    | Except.error e => Except.error e
    | Except.ok (r1, rest) =>
      match rest with
      | [] => Except.ok (r1, [])
      | c :: rest2 =>
        if c = '|' then
          match parseAlt fuel rest2 with
          | Except.ok (r2, rest3) => Except.ok (Regex.alt r1 r2, rest3)
          | Except.error e => Except.error e
        else Except.ok (r1, c :: rest2)

def parseCat : Nat → List Char → Except String (Regex × List Char)
  | 0, _ => Except.error "fuel exhausted"
  | _ + 1, [] => Except.ok (Regex.eps, [])
  | fuel + 1, c :: rest =>
    if c = ')' ∨ c = '|' then Except.ok (Regex.eps, c :: rest)
    else
      match parseQuant fuel (c :: rest) with
      | Except.error e => Except.error e
      | Except.ok (r1, rest1) =>
        match parseCat fuel rest1 with
        | Except.ok (r2, rest2) => Except.ok (Regex.cat r1 r2, rest2)
        | Except.error e => Except.error e

def parseQuant : Nat → List Char → Except String (Regex × List Char)
  | 0, _ => Except.error "fuel exhausted"
  | fuel + 1, l =>
    match parseAtom fuel l with
    | Except.error e => Except.error e
    | Except.ok (r, rest) =>
      match rest with
      | [] => Except.ok (r, [])
      | c :: rest2 =>
        if c = '*' then quantTail (Regex.star r) rest2
        else if c = '+' then quantTail (Regex.cat r (Regex.star r)) rest2
        else if c = '?' then quantTail (Regex.alt r Regex.eps) rest2
        else Except.ok (r, c :: rest2)

def parseAtom : Nat → List Char → Except String (Regex × List Char)
  | 0, _ => Except.error "fuel exhausted"
  | _ + 1, [] => Except.error "nothing to repeat"
  | fuel + 1, c :: rest =>
    if c = '(' then parseGroupTail fuel rest
    else if c = '.' then Except.ok (Regex.anyChar, rest)
    else if c = '*' ∨ c = '+' ∨ c = '?' then Except.error "nothing to repeat"
    else if c = ')' then Except.error "unbalanced parenthesis"
    else if c = '[' then parseClassStart rest
    else if c = '^' ∨ c = '$' then Except.error "anchor not modelled"
    else if c = '\\' then Except.error "escape not modelled"
    else if c.toNat = 123 ∨ c.toNat = 125 then
      Except.error "brace quantifier not modelled"
    else Except.ok (Regex.char c, rest)

def parseGroupTail : Nat → List Char → Except String (Regex × List Char)
  | 0, _ => Except.error "fuel exhausted"
  | _ + 1, '?' :: _ => Except.error "extension group not modelled"
  | fuel + 1, rest =>
    match parseAlt fuel rest with
    | Except.error e => Except.error e
    | Except.ok (r, rest2) =>
      match rest2 with
      | ')' :: rest3 => Except.ok (r, rest3)
      | _ => Except.error "missing ), unterminated subpattern"

end

/-- Compile a query string as `re.compile` does on the modelled fragment:
parse the whole input; leftover input (an unmatched `)`) is the CPython
"unbalanced parenthesis" error. -/
def pyReCompile (s : String) : Except String Regex :=
  match parseAlt (4 * s.data.length + 8) s.data with
  | Except.ok (r, []) => Except.ok r
  | Except.ok (_, _ :: _) => Except.error "unbalanced parenthesis"
  | Except.error e => Except.error e

/-- The pattern a metacharacter-free query compiles to: the literal
concatenation of its characters. -/
def litRegex (l : List Char) : Regex :=
  l.foldr (fun c r => Regex.cat (Regex.char c) r) Regex.eps

/-- The query predicate of `src/main.py` lines 223-228 for a compiled
pattern: fill missing cells with `""`, lower-case each field, and test
`Series.str.contains` (a regex search) on ProjectCode, ProjectName, or
Location. -/
def queryPred (rx : Regex) (r : Row) : Bool :=
  pyReSearch rx (pyLowerStr (r.projectCode.getD ""))
  || pyReSearch rx (pyLowerStr (r.projectName.getD ""))
  || pyReSearch rx (pyLowerStr (r.location.getD ""))

/-- The query filter step: `if code_query:` applies the filter only when
the query string is non-empty (Python truthiness of `str`); the query is
lower-cased and compiled as a pattern, and a compile failure is the raised
`re.error` of `.str.contains`, surfaced as an `Except` error. -/
def applyQuery (q : String) (df : List Row) : Except String (List Row) :=
  if q ≠ "" then
    match pyReCompile (pyLowerStr q) with
    | Except.ok rx => Except.ok (df.filter (queryPred rx))
    | Except.error e => Except.error e
  else Except.ok df

/-- The filter pipeline of `src/main.py` lines 217-228, applied in source
order: year, then location, then query; only the query step can raise. -/
def filtered (fl : Filters) (df : List Row) : Except String (List Row) :=
  applyQuery fl.code_query (applyLocation fl.location_filter (applyYear fl.year_filter df))

/-- The active query predicate of a settings combination, when the query
step is defined: an empty query deactivates the predicate, a valid pattern
yields its search predicate, and an invalid pattern has none. -/
def queryPredOf (q : String) : Option (Row → Bool) :=
  if q = "" then some (fun _ => true)
  else
    match pyReCompile (pyLowerStr q) with
    | Except.ok rx => some (fun r => queryPred rx r)
    | Except.error _ => none

/-- The specification's description of the combined filter: the conjunction
of the three active predicates, where the sentinel (`none`, i.e. "All")
deactivates the year or location predicate and `qp` is the active query
predicate. Stated separately from `filtered` so the pipeline can be
compared against it. -/
def conjunctivePred (fl : Filters) (qp : Row → Bool) (r : Row) : Bool :=
  yearPred fl.year_filter r && locPred fl.location_filter r && qp r

/-- Fixture row A for concrete witnesses. -/
def rowA : Row :=
  ⟨some 2024, some "A", some "ProjA", some "KL", ⟨2024, 1, 10⟩, ⟨2024, 1, 12⟩,
   some "alice"⟩

/-- Fixture row B for concrete witnesses. -/
def rowB : Row :=
  ⟨some 2025, some "B", some "ProjB", some "NYC", ⟨2025, 2, 1⟩, ⟨2025, 2, 3⟩,
   some "bob, carol"⟩

/-- Fixture row C for concrete witnesses. -/
def rowC : Row :=
  ⟨some 2024, some "C", some "ProjC", some "NYC", ⟨2024, 12, 31⟩,
   ⟨2024, 12, 31⟩, none⟩

/-- The GitHub-related configuration read from `st.secrets`. -/
structure Secrets where
  github_token : Option String
  github_repo : Option String
  github_branch : Option String
deriving DecidableEq

/-- The function `can_commit_to_github()` from `src/main.py`: both `GITHUB_TOKEN` and
`GITHUB_REPO` must be present. -/
def can_commit_to_github (sec : Secrets) : Bool :=
  sec.github_token.isSome && sec.github_repo.isSome

/-- A network side effect of the GitHub client, reified for the model. -/
inductive NetOp where
  | getRepo (repo : String)
  | getContents (path branch : String)
  | updateFile (path message : String) (content : XlsxFile) (branch : String)
  | createFile (path message : String) (content : XlsxFile) (branch : String)
deriving DecidableEq

/-- A failure profile for the external GitHub calls: which of the four
remote operations raises when attempted. -/
structure GhBehavior where
  get_repo_fails : Bool
  get_contents_fails : Bool
  update_file_fails : Bool
  create_file_fails : Bool
deriving DecidableEq

/-- What `commit_excel_to_github` reports: `skipped` (`st.info`, secrets
missing), `pushed` (`st.success`), or `warned` (`st.error` in the outer
`except`). -/
inductive CommitOutcome where
  | skipped
  | pushed
  | warned
deriving DecidableEq

/-- The local machine state: the persisted spreadsheet file. -/
structure World where
  excel_file : XlsxFile
deriving DecidableEq

/-- The body of `commit_excel_to_github` after the secrets guard
(`src/main.py` lines 86-100), before the outer `try/except`: `get_repo`,
read the local file, then try `get_contents` + `update_file`, falling back
to `create_file` on any inner failure. An uncaught failure is an `Except`
error carrying the network operations attempted so far. -/
def commit_body (message : String) (sec : Secrets) (beh : GhBehavior) (w : World) :
    Except (List NetOp) (List NetOp × CommitOutcome) :=
  let repo_name := sec.github_repo.getD ""
  let branch := sec.github_branch.getD "main"
  if beh.get_repo_fails then Except.error [NetOp.getRepo repo_name]
  else if beh.get_contents_fails then
    -- inner try fails at get_contents; fall back to create_file
    (if beh.create_file_fails then
      Except.error [NetOp.getRepo repo_name,
        NetOp.getContents "projects.xlsx" branch,
        NetOp.createFile "projects.xlsx" "Create projects.xlsx" w.excel_file branch]
    else
      Except.ok ([NetOp.getRepo repo_name,
        NetOp.getContents "projects.xlsx" branch,
        NetOp.createFile "projects.xlsx" "Create projects.xlsx" w.excel_file branch],
        CommitOutcome.pushed))
  else if beh.update_file_fails then
    -- inner try fails at update_file; fall back to create_file
    (if beh.create_file_fails then
      Except.error [NetOp.getRepo repo_name,
        NetOp.getContents "projects.xlsx" branch,
        NetOp.updateFile "projects.xlsx" message w.excel_file branch,
        NetOp.createFile "projects.xlsx" "Create projects.xlsx" w.excel_file branch]
    else
      Except.ok ([NetOp.getRepo repo_name,
        NetOp.getContents "projects.xlsx" branch,
        NetOp.updateFile "projects.xlsx" message w.excel_file branch,
        NetOp.createFile "projects.xlsx" "Create projects.xlsx" w.excel_file branch],
        CommitOutcome.pushed))
  else
    Except.ok ([NetOp.getRepo repo_name,
      NetOp.getContents "projects.xlsx" branch,
      NetOp.updateFile "projects.xlsx" message w.excel_file branch],
      CommitOutcome.pushed)

/-- The function `commit_excel_to_github` from `src/main.py`: the secrets guard, the
body, and the outer `try/except Exception` that turns any uncaught error
into a warning (`st.error`). The local world is returned unchanged in every
branch — the function only reads the spreadsheet file. -/
def commit_excel_to_github (message : String) (sec : Secrets) (beh : GhBehavior)
    (w : World) : World × List NetOp × CommitOutcome :=
  if can_commit_to_github sec = false then (w, [], CommitOutcome.skipped)
  else
    match commit_body message sec beh w with
    | Except.ok (ops, out) => (w, ops, out)
    | Except.error ops => (w, ops, CommitOutcome.warned)

/-- The add-form submit handler (`src/main.py` lines 290-292): append the
new row, save locally, then attempt the GitHub commit. -/
def add_submit (sec : Secrets) (beh : GhBehavior) (df : List Row) (new_row : Row) :
    List Row × (World × List NetOp × CommitOutcome) :=
  let df2 := df ++ [new_row]
  let w1 : World := ⟨save_data df2⟩
  (df2, commit_excel_to_github "Add project" sec beh w1)

/-- The add-project section (`src/main.py` lines 265-296): the add form —
and hence any append — exists only under `if is_admin()`; non-admin users
see only an informational notice and the table is unchanged. -/
def add_project_section (s : Session) (df : List Row) (submission : Option Row) :
    List Row :=
  if is_admin s then
    match submission with
    | some r => df ++ [r]
    | none => df
  else df

/-! Character-level lemmas about the Python string primitives -/

theorem pyLowerChar_spec (c : Char) :
    pyLowerChar c = c ∨ ∃ p, p ∈ upperToLowerTable ∧ p.1 = c ∧ pyLowerChar c = p.2 := by
  unfold pyLowerChar
  cases h : upperToLowerTable.find? (fun p => p.1 == c) with
  | none => exact Or.inl rfl
  | some p =>
    refine Or.inr ⟨p, List.mem_of_find?_eq_some h, ?_, rfl⟩
    have h2 := List.find?_some h
    exact eq_of_beq h2

theorem upperToLowerTable_facts : ∀ p ∈ upperToLowerTable,
    p.2 ≠ ',' ∧ p.1 ≠ ',' ∧ isPyWs p.1 = false ∧ isPyWs p.2 = false ∧
      pyLowerChar p.2 = p.2 := by
  decide

theorem pyLowerChar_comma : pyLowerChar ',' = ',' := by decide

theorem pyLowerChar_ne_comma {c : Char} (h : c ≠ ',') : pyLowerChar c ≠ ',' := by
  rcases pyLowerChar_spec c with h1 | ⟨p, hp, _, h2⟩
  · rw [h1]; exact h
  · rw [h2]; exact (upperToLowerTable_facts p hp).1

theorem isPyWs_pyLowerChar (c : Char) : isPyWs (pyLowerChar c) = isPyWs c := by
  rcases pyLowerChar_spec c with h1 | ⟨p, hp, hc, h2⟩
  · rw [h1]
  · rw [h2, ← hc, (upperToLowerTable_facts p hp).2.2.1,
      (upperToLowerTable_facts p hp).2.2.2.1]

theorem pyLowerChar_idem (c : Char) : pyLowerChar (pyLowerChar c) = pyLowerChar c := by
  rcases pyLowerChar_spec c with h1 | ⟨p, hp, _, h2⟩
  · rw [h1, h1]
  · rw [h2]; exact (upperToLowerTable_facts p hp).2.2.2.2

theorem map_pyLowerChar_idem (l : List Char) :
    (l.map pyLowerChar).map pyLowerChar = l.map pyLowerChar := by
  have h : pyLowerChar ∘ pyLowerChar = pyLowerChar := funext pyLowerChar_idem
  rw [List.map_map, h]

theorem splitCommaChars_map_lower (l : List Char) :
    splitCommaChars (l.map pyLowerChar)
      = (splitCommaChars l).map (List.map pyLowerChar) := by
  induction l with
  | nil => rfl
  | cons c cs ih =>
    by_cases hc : c = ','
    · subst hc
      simp [splitCommaChars, pyLowerChar_comma, ih]
    · have hlc : pyLowerChar c ≠ ',' := pyLowerChar_ne_comma hc
      simp only [List.map_cons, splitCommaChars, if_neg hc, if_neg hlc, ih]
      cases hsp : splitCommaChars cs with
      | nil => simp
      | cons t ts => simp

theorem pyStripChars_map_lower (l : List Char) :
    pyStripChars (l.map pyLowerChar) = (pyStripChars l).map pyLowerChar := by
  have hws : (isPyWs ∘ pyLowerChar) = isPyWs := funext isPyWs_pyLowerChar
  unfold pyStripChars
  rw [List.dropWhile_map, hws, ← List.map_reverse, List.dropWhile_map, hws,
    ← List.map_reverse]

/-! Token-list lemmas for the authorization check -/

theorem mk_eq_empty_iff (l : List Char) : (⟨l⟩ : String) = "" ↔ l = [] := by
  constructor
  · intro h; have h2 := congrArg String.data h; simpa using h2
  · intro h; subst h; rfl

theorem lower_strip_lower (l : List Char) :
    pyLowerStr (pyStrip (⟨l.map pyLowerChar⟩ : String))
      = pyLowerStr (pyStrip (⟨l⟩ : String)) := by
  show (⟨(pyStripChars (l.map pyLowerChar)).map pyLowerChar⟩ : String)
      = (⟨(pyStripChars l).map pyLowerChar⟩ : String)
  rw [pyStripChars_map_lower, map_pyLowerChar_idem]

theorem condL_iff (l : List Char) :
    (pyStrip (⟨l.map pyLowerChar⟩ : String) ≠ "") ↔ (pyStripChars l ≠ []) := by
  show ((⟨pyStripChars (l.map pyLowerChar)⟩ : String) ≠ "") ↔ _
  rw [pyStripChars_map_lower, ne_eq, mk_eq_empty_iff, List.map_eq_nil_iff]

theorem condR_iff (l : List Char) :
    (pyLowerStr (pyStrip (⟨l⟩ : String)) ≠ "") ↔ (pyStripChars l ≠ []) := by
  show ((⟨(pyStripChars l).map pyLowerChar⟩ : String) ≠ "") ↔ _
  rw [ne_eq, mk_eq_empty_iff, List.map_eq_nil_iff]

theorem tokens_eq_aux (L : List (List Char)) :
    ((L.map (fun l => (⟨l.map pyLowerChar⟩ : String))).filter
        (fun u => pyStrip u ≠ "")).map (fun u => pyLowerStr (pyStrip u))
      = ((L.map (fun l => (⟨l⟩ : String))).map
          (fun t => pyLowerStr (pyStrip t))).filter (fun t => t ≠ "") := by
  induction L with
  | nil => rfl
  | cons l L ih =>
    have e1 : (decide (pyStrip (⟨l.map pyLowerChar⟩ : String) ≠ ""))
        = decide (pyStripChars l ≠ []) := decide_eq_decide.mpr (condL_iff l)
    have e2 : (decide (pyLowerStr (pyStrip (⟨l⟩ : String)) ≠ ""))
        = decide (pyStripChars l ≠ []) := decide_eq_decide.mpr (condR_iff l)
    simp only [List.map_cons, List.filter_cons, e1, e2]
    by_cases h : pyStripChars l = []
    · simpa [h] using ih
    · simpa [h, lower_strip_lower] using ih

theorem pySplitComma_data (s : String) :
    pySplitComma s = (splitCommaChars s.data).map (fun l => (⟨l⟩ : String)) := rfl

theorem pySplitComma_lower (s : String) :
    pySplitComma (pyLowerStr s)
      = (splitCommaChars s.data).map (fun l => (⟨l.map pyLowerChar⟩ : String)) := by
  show (splitCommaChars (s.data.map pyLowerChar)).map (fun l => (⟨l⟩ : String)) = _
  rw [splitCommaChars_map_lower, List.map_map]
  rfl

theorem code_tokens_eq (team : String) :
    ((pySplitComma (pyLowerStr team)).filter (fun u => pyStrip u ≠ "")).map
      (fun u => pyLowerStr (pyStrip u)) = team_tokens team := by
  unfold team_tokens
  rw [pySplitComma_lower, pySplitComma_data]
  exact tokens_eq_aux (splitCommaChars team.data)

theorem team_tokens_ne_empty (team : String) (t : String)
    (ht : t ∈ team_tokens team) : t ≠ "" := by
  unfold team_tokens at ht
  have h2 := (List.mem_filter.mp ht).2
  simpa using h2

theorem can_edit_iff (s : Session) (team : String) :
    can_edit s team = true
      ↔ (s.auth_role = "admin" ∨ pyLowerStr s.auth_user ∈ team_tokens team) := by
  simp only [can_edit, is_admin, current_user]
  rw [code_tokens_eq]
  simp only [Bool.or_eq_true, Bool.and_eq_true, beq_iff_eq, decide_eq_true_eq,
    List.elem_iff]
  constructor
  · rintro (h | ⟨_, h⟩)
    · exact Or.inl h
    · exact Or.inr h
  · rintro (h | h)
    · exact Or.inl h
    · exact Or.inr ⟨team_tokens_ne_empty team _ h, h⟩

/-- C1: the edit/delete authorization check returns true unconditionally for
an admin; for a non-admin it returns true iff the username, lower-cased,
appears among the comma-split, trimmed, lower-cased (non-empty) tokens of
the record's ProjectTeam string; with an empty team field only an admin is
authorized. -/
theorem c1_edit_delete_authorization (s : Session) (team : String) :
    (can_edit s team = true
      ↔ (s.auth_role = "admin" ∨ pyLowerStr s.auth_user ∈ team_tokens team))
    ∧ (can_edit s "" = true ↔ s.auth_role = "admin") := by
  refine ⟨can_edit_iff s team, ?_⟩
  rw [can_edit_iff s ""]
  have h : team_tokens "" = [] := by decide
  simp [h]

/-- C10: a non-admin caller with the empty username is never authorized,
for every team string; moreover the empty string is never among the tokens
the code tests membership against (empty and whitespace-only fragments are
discarded), so a blank identity can never match a blank team token. -/
theorem c10_empty_username_never_authorized (s : Session) (team : String)
    (hu : s.auth_user = "") (hr : s.auth_role ≠ "admin") :
    can_edit s team = false
    ∧ "" ∉ ((pySplitComma (pyLowerStr team)).filter
        (fun u => pyStrip u ≠ "")).map (fun u => pyLowerStr (pyStrip u)) := by
  constructor
  · cases hce : can_edit s team
    · rfl
    · exfalso
      rcases (can_edit_iff s team).mp hce with h | h
      · exact hr h
      · rw [hu] at h
        exact team_tokens_ne_empty team _ h rfl
  · rw [code_tokens_eq]
    intro h
    exact team_tokens_ne_empty team "" h rfl

theorem c10_empty_username_never_authorized_witness :
    can_edit ⟨"", "viewer"⟩ " , x,, " = false
    ∧ "" ∉ ((pySplitComma (pyLowerStr " , x,, ")).filter
        (fun u => pyStrip u ≠ "")).map (fun u => pyLowerStr (pyStrip u)) :=
  c10_empty_username_never_authorized ⟨"", "viewer"⟩ " , x,, " rfl (by decide)

/-- C2: a record can be created through the add section iff the session
role is admin; with no submission, or for a non-admin user, the table is
unchanged — for every non-admin user the append branch is unreachable. -/
theorem c2_add_is_admin_gated (s : Session) (df : List Row) (r : Row) :
    add_project_section s df (some r)
        = (if s.auth_role = "admin" then df ++ [r] else df)
    ∧ add_project_section s df none = df
    ∧ (is_admin s = true ↔ s.auth_role = "admin") := by
  refine ⟨?_, ?_, ?_⟩
  · by_cases h : s.auth_role = "admin"
    · simp [add_project_section, is_admin, h]
    · simp [add_project_section, is_admin, h]
  · by_cases h : s.auth_role = "admin"
    · simp [add_project_section, is_admin, h]
    · simp [add_project_section, is_admin, h]
  · simp [is_admin]

/-! Round-trip of the tabular store -/

theorem cellsToRow_rowToCells (r : Row) : cellsToRow (rowToCells r) = some r := by
  rcases r with ⟨y, c, n, l, s, e, t⟩
  cases y <;> cases c <;> cases n <;> cases l <;> cases t <;> rfl

theorem decodeRows_encode (records : List Row) :
    decodeRows (records.map rowToCells) = some records := by
  induction records with
  | nil => rfl
  | cons r rs ih => simp [decodeRows, cellsToRow_rowToCells, ih]

/-- C4: saving a well-formed record sequence and loading it back yields the
identical sequence, with the fixed column order and the row count
preserved. -/
theorem c4_save_load_roundtrip (records : List Row) :
    load_data (save_data records) = some records
    ∧ (save_data records).header = COLUMNS
    ∧ (save_data records).rows.length = records.length := by
  refine ⟨?_, rfl, by simp [save_data]⟩
  unfold load_data save_data
  rw [if_pos ⟨rfl, rfl⟩]
  exact decodeRows_encode records

/-- C5: deleting a valid ordinal index produces a table one row shorter
consisting of the original rows in order with that row removed, re-indexed
contiguously; deleting index 1 from the three-row fixture [A, B, C] yields
[A, C]. -/
theorem c5_delete_repacks (df : List Row) (i : Nat) (h : i < df.length) :
    ((do_delete df i).length = df.length - 1
      ∧ ∀ j : Nat, (do_delete df i)[j]? = if j < i then df[j]? else df[j + 1]?)
    ∧ do_delete [rowA, rowB, rowC] 1 = [rowA, rowC] := by
  refine ⟨⟨?_, ?_⟩, rfl⟩
  · unfold do_delete
    rw [List.length_eraseIdx, if_pos h]
  · intro j
    exact List.getElem?_eraseIdx df i j

theorem c5_delete_repacks_witness :
    ((1 : Nat) < ([rowA, rowB, rowC] : List Row).length)
    ∧ (((do_delete [rowA, rowB, rowC] 1).length
          = ([rowA, rowB, rowC] : List Row).length - 1
        ∧ ∀ j : Nat, (do_delete [rowA, rowB, rowC] 1)[j]?
            = if j < 1 then ([rowA, rowB, rowC] : List Row)[j]?
              else ([rowA, rowB, rowC] : List Row)[j + 1]?)
      ∧ do_delete [rowA, rowB, rowC] 1 = [rowA, rowC]) :=
  ⟨by decide, c5_delete_repacks [rowA, rowB, rowC] 1 (by decide)⟩

/-! Remote sync -/

theorem commit_preserves_world (m : String) (sec : Secrets) (beh : GhBehavior)
    (w : World) : (commit_excel_to_github m sec beh w).1 = w := by
  unfold commit_excel_to_github
  by_cases h : can_commit_to_github sec = false
  · rw [if_pos h]
  · rw [if_neg h]
    cases commit_body m sec beh w with
    | ok p => rcases p with ⟨ops, out⟩; rfl
    | error ops => rfl

/-- C8: when either GitHub secret is absent the sync is a no-op — it
performs no network operation, reports the skip (returning without
raising), and leaves the local world untouched. -/
theorem c8_sync_noop_without_config (m : String) (sec : Secrets)
    (beh : GhBehavior) (w : World)
    (h : sec.github_token = none ∨ sec.github_repo = none) :
    commit_excel_to_github m sec beh w = (w, [], CommitOutcome.skipped)
    ∧ can_commit_to_github sec = false := by
  have hc : can_commit_to_github sec = false := by
    rcases h with h | h <;> simp [can_commit_to_github, h]
  exact ⟨by rw [commit_excel_to_github, if_pos hc], hc⟩

theorem c8_sync_noop_without_config_witness :
    commit_excel_to_github "m" ⟨none, some "r", none⟩ ⟨true, true, true, true⟩
        ⟨save_data []⟩ = (⟨save_data []⟩, [], CommitOutcome.skipped)
    ∧ can_commit_to_github ⟨none, some "r", none⟩ = false :=
  c8_sync_noop_without_config "m" ⟨none, some "r", none⟩
    ⟨true, true, true, true⟩ ⟨save_data []⟩ (Or.inl rfl)

/-- C9: an error anywhere inside the sync body surfaces only as a warning
(the outer catch), never past the sync boundary; the sync never modifies
the local world, and the add handler's local save is persisted before sync
and remains persisted whatever the sync behavior does. -/
theorem c9_sync_failure_never_blocks_local_save (m : String) (sec : Secrets)
    (beh : GhBehavior) (w : World) (df : List Row) (new_row : Row)
    (ops : List NetOp)
    (hcc : can_commit_to_github sec = true)
    (herr : commit_body m sec beh w = Except.error ops) :
    commit_excel_to_github m sec beh w = (w, ops, CommitOutcome.warned)
    ∧ (commit_excel_to_github m sec beh w).1 = w
    ∧ (add_submit sec beh df new_row).1 = df ++ [new_row]
    ∧ (add_submit sec beh df new_row).2.1.excel_file
        = save_data (df ++ [new_row]) := by
  refine ⟨?_, commit_preserves_world m sec beh w, rfl, ?_⟩
  · rw [commit_excel_to_github, if_neg (by simp [hcc]), herr]
  · show (commit_excel_to_github "Add project" sec beh
        ⟨save_data (df ++ [new_row])⟩).1.excel_file = save_data (df ++ [new_row])
    rw [commit_preserves_world]

/-! Calendar export -/

theorem event_lines_length (now : String) (r : Row) :
    (event_lines now r).length = 9 := rfl

theorem flatMap_event_length (now : String) (df : List Row) :
    (df.flatMap (event_lines now)).length = 9 * df.length := by
  induction df with
  | nil => rfl
  | cons r rs ih =>
    rw [List.flatMap_cons, List.length_append, event_lines_length, ih,
      List.length_cons]
    ring

theorem flatMap_event_getElem (now : String) (df : List Row) (i k : Nat)
    (hi : i < df.length) (hk : k < 9) :
    (df.flatMap (event_lines now))[9 * i + k]?
      = (event_lines now (df.get ⟨i, hi⟩))[k]? := by
  induction df generalizing i with
  | nil => exact absurd hi (by simp)
  | cons r rs ih =>
    cases i with
    | zero =>
      rw [List.flatMap_cons, List.getElem?_append,
        if_pos (by rw [event_lines_length]; omega)]
      simp
    | succ i =>
      have hi2 : i < rs.length := by simpa using hi
      have harith : 9 * (i + 1) + k = (event_lines now r).length + (9 * i + k) := by
        rw [event_lines_length]; ring
      rw [List.flatMap_cons, harith,
        List.getElem?_append_right (Nat.le_add_right _ _)]
      have hsub : (event_lines now r).length + (9 * i + k)
          - (event_lines now r).length = 9 * i + k := by omega
      rw [hsub]
      exact ih i hi2

/-- C3: for every record the calendar export emits DTSTART equal to the
stored ProjectStart formatted YYYYMMDD and DTEND equal to ProjectEnd plus
one calendar day formatted YYYYMMDD — both in the single-record export and
at each record's position in the bulk export — and on the claim's example
dates 2024-01-10 / 2024-01-12 the emitted values are 20240110 and
20240113. -/
theorem c3_calendar_end_date_exclusive (now : String) (r : Row)
    (df : List Row) (i : Nat) (hi : i < df.length) :
    (make_ics_row_lines now r)[6]?
        = some ("DTSTART;VALUE=DATE:" ++ date_to_ics r.projectStart)
    ∧ (make_ics_row_lines now r)[7]?
        = some ("DTEND;VALUE=DATE:" ++ date_to_ics (nextDay r.projectEnd))
    ∧ (make_ics_df_lines now df)[3 + (9 * i + 3)]?
        = some ("DTSTART;VALUE=DATE:"
            ++ date_to_ics (df.get ⟨i, hi⟩).projectStart)
    ∧ (make_ics_df_lines now df)[3 + (9 * i + 4)]?
        = some ("DTEND;VALUE=DATE:"
            ++ date_to_ics (nextDay (df.get ⟨i, hi⟩).projectEnd))
    ∧ nextDay ⟨2024, 1, 12⟩ = ⟨2024, 1, 13⟩
    ∧ date_to_ics ⟨2024, 1, 10⟩ = "20240110"
    ∧ date_to_ics ⟨2024, 1, 13⟩ = "20240113" := by
  have hc : calHeader.length = 3 := rfl
  have hdf : ∀ k, k < 9 →
      (make_ics_df_lines now df)[3 + (9 * i + k)]?
        = (event_lines now (df.get ⟨i, hi⟩))[k]? := by
    intro k hk
    unfold make_ics_df_lines
    have hlen : (calHeader ++ df.flatMap (event_lines now)).length
        = 3 + 9 * df.length := by
      rw [List.length_append, flatMap_event_length, hc]
    rw [List.getElem?_append, if_pos (by rw [hlen]; omega),
      List.getElem?_append_right (by rw [hc]; omega), hc]
    have h3 : 3 + (9 * i + k) - 3 = 9 * i + k := by omega
    rw [h3]
    exact flatMap_event_getElem now df i k hi hk
  refine ⟨rfl, rfl, ?_, ?_, by decide, by decide, by decide⟩
  · rw [hdf 3 (by omega)]; rfl
  · rw [hdf 4 (by omega)]; rfl

theorem c3_calendar_end_date_exclusive_witness :
    ((0 : Nat) < ([rowB] : List Row).length)
    ∧ ((make_ics_row_lines "TS" rowA)[6]?
          = some ("DTSTART;VALUE=DATE:" ++ date_to_ics rowA.projectStart)
      ∧ (make_ics_row_lines "TS" rowA)[7]?
          = some ("DTEND;VALUE=DATE:" ++ date_to_ics (nextDay rowA.projectEnd))
      ∧ (make_ics_df_lines "TS" [rowB])[3 + (9 * 0 + 3)]?
          = some ("DTSTART;VALUE=DATE:"
              ++ date_to_ics (([rowB] : List Row).get ⟨0, by decide⟩).projectStart)
      ∧ (make_ics_df_lines "TS" [rowB])[3 + (9 * 0 + 4)]?
          = some ("DTEND;VALUE=DATE:"
              ++ date_to_ics (nextDay (([rowB] : List Row).get ⟨0, by decide⟩).projectEnd))
      ∧ nextDay ⟨2024, 1, 12⟩ = ⟨2024, 1, 13⟩
      ∧ date_to_ics ⟨2024, 1, 10⟩ = "20240110"
      ∧ date_to_ics ⟨2024, 1, 13⟩ = "20240113") :=
  ⟨by decide, c3_calendar_end_date_exclusive "TS" rowA [rowB] 0 (by decide)⟩

/-! Filter pipeline -/

theorem prefixMatch_emptyPat (t : List Char) :
    prefixMatch Regex.emptyPat t = false := by
  induction t with
  | nil => rfl
  | cons c rest ih => simpa [prefixMatch, nullable, deriv] using ih

theorem litRegex_cons (c : Char) (l : List Char) :
    litRegex (c :: l) = Regex.cat (Regex.char c) (litRegex l) := rfl

theorem nullable_litRegex (l : List Char) :
    nullable (litRegex l) = decide (l = []) := by
  cases l <;> rfl

theorem deriv_litRegex (c : Char) (l : List Char) (a : Char) :
    deriv (litRegex (c :: l)) a
      = if a = c then litRegex l else Regex.emptyPat := by
  have h0 : deriv (litRegex (c :: l)) a
      = smartCat (if a = c then Regex.eps else Regex.emptyPat) (litRegex l) := rfl
  rw [h0]
  by_cases h : a = c
  · rw [if_pos h, if_pos h]
    rfl
  · rw [if_neg h, if_neg h]
    rfl

theorem prefixMatch_lit (l : List Char) :
    ∀ t : List Char, prefixMatch (litRegex l) t = true ↔ l <+: t := by
  induction l with
  | nil =>
    intro t
    cases t with
    | nil => simp [prefixMatch, litRegex, nullable]
    | cons a rest => simp [prefixMatch, litRegex, nullable, List.nil_prefix]
  | cons c l ih =>
    intro t
    cases t with
    | nil =>
      simp [prefixMatch, nullable_litRegex, List.prefix_nil]
    | cons a rest =>
      rw [prefixMatch, nullable_litRegex, deriv_litRegex, List.cons_prefix_cons]
      by_cases h : a = c
      · subst h
        simp [ih rest]
      · rw [if_neg h, prefixMatch_emptyPat]
        constructor
        · intro hx
          simp at hx
        · rintro ⟨he, -⟩
          exact absurd he.symm h

theorem reSearch_lit (l : List Char) :
    ∀ s : List Char, reSearch (litRegex l) s = true ↔ List.IsInfix l s := by
  intro s
  induction s with
  | nil =>
    rw [reSearch, nullable_litRegex]
    simp [List.infix_nil]
  | cons a rest ih =>
    rw [reSearch, List.infix_cons_iff, Bool.or_eq_true, prefixMatch_lit, ih]

theorem upperToLowerTable_meta : ∀ p ∈ upperToLowerTable,
    isMetaChar p.1 = false ∧ isMetaChar p.2 = false := by decide

theorem isMetaChar_pyLowerChar (c : Char) :
    isMetaChar (pyLowerChar c) = isMetaChar c := by
  rcases pyLowerChar_spec c with h1 | ⟨p, hp, hc, h2⟩
  · rw [h1]
  · rw [h2, ← hc, (upperToLowerTable_meta p hp).1,
      (upperToLowerTable_meta p hp).2]

theorem parseAtom_lit (fuel : Nat) (c : Char) (l : List Char)
    (hc : isMetaChar c = false) :
    parseAtom (fuel + 1) (c :: l) = Except.ok (Regex.char c, l) := by
  have hA : c ≠ '(' := fun he => by subst he; simp [isMetaChar] at hc
  have hB : c ≠ '.' := fun he => by subst he; simp [isMetaChar] at hc
  have hC : ¬(c = '*' ∨ c = '+' ∨ c = '?') := by
    rintro (he | he | he) <;> (subst he; simp [isMetaChar] at hc)
  have hD : c ≠ ')' := fun he => by subst he; simp [isMetaChar] at hc
  have hE : c ≠ '[' := fun he => by subst he; simp [isMetaChar] at hc
  have hF : ¬(c = '^' ∨ c = '$') := by
    rintro (he | he) <;> (subst he; simp [isMetaChar] at hc)
  have hG : c ≠ '\\' := fun he => by subst he; simp [isMetaChar] at hc
  have hH : ¬(c.toNat = 123 ∨ c.toNat = 125) := by
    rintro (he | he) <;> simp [isMetaChar, he] at hc
  rw [parseAtom, if_neg hA, if_neg hB, if_neg hC, if_neg hD, if_neg hE,
    if_neg hF, if_neg hG, if_neg hH]

theorem parseQuant_lit (fuel : Nat) (c : Char) (l : List Char)
    (hc : isMetaChar c = false) (hl : ∀ x ∈ l, isMetaChar x = false) :
    parseQuant (fuel + 2) (c :: l) = Except.ok (Regex.char c, l) := by
  rw [parseQuant]
  have ha : parseAtom (fuel + 1) (c :: l) = Except.ok (Regex.char c, l) :=
    parseAtom_lit fuel c l hc
  cases l with
  | nil => simp only [ha]
  | cons c2 rest2 =>
    have h2 := hl c2 (by simp)
    have hq1 : c2 ≠ '*' := fun he => by subst he; simp [isMetaChar] at h2
    have hq2 : c2 ≠ '+' := fun he => by subst he; simp [isMetaChar] at h2
    have hq3 : c2 ≠ '?' := fun he => by subst he; simp [isMetaChar] at h2
    simp only [ha, if_neg hq1, if_neg hq2, if_neg hq3]

theorem parseCat_lit (l : List Char) :
    ∀ fuel : Nat, (∀ x ∈ l, isMetaChar x = false) → 4 * l.length + 4 ≤ fuel →
      parseCat fuel l = Except.ok (litRegex l, []) := by
  induction l with
  | nil =>
    intro fuel _ hf
    obtain ⟨f, rfl⟩ : ∃ f, fuel = f + 1 := ⟨fuel - 1, by omega⟩
    rfl
  | cons c rest ih =>
    intro fuel hm hf
    obtain ⟨g, rfl⟩ : ∃ g, fuel = (g + 2) + 1 :=
      ⟨fuel - 3, by simp only [List.length_cons] at hf; omega⟩
    have hc : isMetaChar c = false := hm c (by simp)
    have hcp : ¬(c = ')' ∨ c = '|') := by
      rintro (he | he) <;> (subst he; simp [isMetaChar] at hc)
    have h1 : parseQuant (g + 2) (c :: rest) = Except.ok (Regex.char c, rest) :=
      parseQuant_lit g c rest hc (fun x hx => hm x (by simp [hx]))
    have h2 : parseCat (g + 2) rest = Except.ok (litRegex rest, []) :=
      ih (g + 2) (fun x hx => hm x (by simp [hx]))
        (by simp only [List.length_cons] at hf; omega)
    rw [parseCat, if_neg hcp]
    simp only [h1, h2, litRegex_cons]

theorem parseAlt_lit (l : List Char) (fuel : Nat)
    (hm : ∀ x ∈ l, isMetaChar x = false) (hf : 4 * l.length + 5 ≤ fuel) :
    parseAlt fuel l = Except.ok (litRegex l, []) := by
  obtain ⟨f, rfl⟩ : ∃ f, fuel = f + 1 := ⟨fuel - 1, by omega⟩
  rw [parseAlt]
  simp only [parseCat_lit l f hm (by omega)]

theorem pyReCompile_lit (s : String)
    (hm : ∀ c ∈ s.data, isMetaChar c = false) :
    pyReCompile s = Except.ok (litRegex s.data) := by
  rw [pyReCompile]
  simp only [parseAlt_lit s.data (4 * s.data.length + 8) hm (by omega)]

/-- C6 counterexample: the query step is not the described bypass-or-
substring filter. A whitespace-only (blank) query does not bypass it — on a
one-row table whose searched fields contain no whitespace the row is
removed; the query `"."` keeps a row none of whose searched fields contains
the character `.` (regex match, not substring); and the query `"("` makes
the query step raise instead of filtering. -/
theorem c6_blank_query_counterexample :
    pyStrip " " = ""
    ∧ filtered ⟨none, none, " "⟩ [rowA] = Except.ok []
    ∧ filtered ⟨none, none, "."⟩ [rowA] = Except.ok [rowA]
    ∧ ¬ List.IsInfix ['.'] (pyLowerStr (rowA.projectCode.getD "")).data
    ∧ ¬ List.IsInfix ['.'] (pyLowerStr (rowA.projectName.getD "")).data
    ∧ ¬ List.IsInfix ['.'] (pyLowerStr (rowA.location.getD "")).data
    ∧ filtered ⟨none, none, "("⟩ [rowA]
        = Except.error "missing ), unterminated subpattern" :=
  ⟨rfl, rfl, rfl, by decide, by decide, by decide, rfl⟩

/-- C6 (amended): a non-empty query is treated as a regular expression (the
`Series.str.contains` default): the step keeps exactly the rows where the
lower-cased pattern matches somewhere in the lower-cased ProjectCode,
ProjectName, or Location (logical OR), missing cells as empty strings; for
queries without regex metacharacters this is exactly case-insensitive
substring match; an empty query bypasses the query filter, while a
whitespace-only query is applied like any other non-empty query. -/
theorem c6_query_filter_semantics (df : List Row) (q : String) (r : Row)
    (rx : Regex) (hq : q ≠ "")
    (hc : pyReCompile (pyLowerStr q) = Except.ok rx) :
    applyQuery "" df = Except.ok df
    ∧ filtered ⟨none, none, ""⟩ df = Except.ok df
    ∧ applyQuery q df = Except.ok (df.filter (queryPred rx))
    ∧ (r ∈ df.filter (queryPred rx) ↔ r ∈ df ∧
        (pyReSearch rx (pyLowerStr (r.projectCode.getD "")) = true
         ∨ pyReSearch rx (pyLowerStr (r.projectName.getD "")) = true
         ∨ pyReSearch rx (pyLowerStr (r.location.getD "")) = true))
    ∧ ((∀ c ∈ q.data, isMetaChar c = false) →
        (r ∈ df.filter (queryPred rx) ↔ r ∈ df ∧
          (List.IsInfix (pyLowerStr q).data
              (pyLowerStr (r.projectCode.getD "")).data
           ∨ List.IsInfix (pyLowerStr q).data
              (pyLowerStr (r.projectName.getD "")).data
           ∨ List.IsInfix (pyLowerStr q).data
              (pyLowerStr (r.location.getD "")).data))) := by
  refine ⟨by simp [applyQuery],
    by simp [filtered, applyYear, applyLocation, applyQuery], ?_, ?_, ?_⟩
  · unfold applyQuery
    rw [if_pos hq, hc]
  · rw [List.mem_filter]
    simp [queryPred, or_assoc]
  · intro hm
    have hm2 : ∀ c ∈ (pyLowerStr q).data, isMetaChar c = false := by
      intro c hcm
      have hcm2 : c ∈ q.data.map pyLowerChar := hcm
      obtain ⟨a, ha, rfl⟩ := List.mem_map.mp hcm2
      rw [isMetaChar_pyLowerChar]
      exact hm a ha
    have hrx : rx = litRegex (pyLowerStr q).data := by
      have h3 := pyReCompile_lit (pyLowerStr q) hm2
      rw [hc] at h3
      exact Except.ok.inj h3
    subst hrx
    rw [List.mem_filter]
    refine and_congr_right fun _ => ?_
    simp only [queryPred, Bool.or_eq_true, pyReSearch]
    rw [reSearch_lit, reSearch_lit, reSearch_lit, or_assoc]

theorem c6_query_filter_semantics_witness :
    applyQuery "" [rowB] = Except.ok [rowB]
    ∧ filtered ⟨none, none, ""⟩ [rowB] = Except.ok [rowB]
    ∧ applyQuery "b" [rowB]
        = Except.ok ([rowB].filter (queryPred (litRegex ('b' :: []))))
    ∧ (rowB ∈ [rowB].filter (queryPred (litRegex ('b' :: []))) ↔ rowB ∈ [rowB] ∧
        (pyReSearch (litRegex ('b' :: []))
            (pyLowerStr (rowB.projectCode.getD "")) = true
         ∨ pyReSearch (litRegex ('b' :: []))
            (pyLowerStr (rowB.projectName.getD "")) = true
         ∨ pyReSearch (litRegex ('b' :: []))
            (pyLowerStr (rowB.location.getD "")) = true))
    ∧ (rowB ∈ [rowB].filter (queryPred (litRegex ('b' :: []))) ↔ rowB ∈ [rowB] ∧
        (List.IsInfix (pyLowerStr "b").data
            (pyLowerStr (rowB.projectCode.getD "")).data
         ∨ List.IsInfix (pyLowerStr "b").data
            (pyLowerStr (rowB.projectName.getD "")).data
         ∨ List.IsInfix (pyLowerStr "b").data
            (pyLowerStr (rowB.location.getD "")).data)) := by
  have h := c6_query_filter_semantics [rowB] "b" rowB (litRegex ('b' :: []))
    (by decide) rfl
  exact ⟨h.1, h.2.1, h.2.2.1, h.2.2.2.1, h.2.2.2.2 (by decide)⟩

/-- C7 counterexample: for the query setting `"("` the query step raises
(the pattern is invalid), so there is no filter result at all — in
particular the result is `ok` of neither subsequence of the one-row
input — refuting the claim's universal quantification over all query
settings. -/
theorem c7_invalid_query_counterexample :
    filtered ⟨none, none, "("⟩ [rowA]
        = Except.error "missing ), unterminated subpattern"
    ∧ filtered ⟨none, none, "("⟩ [rowA] ≠ Except.ok []
    ∧ filtered ⟨none, none, "("⟩ [rowA] ≠ Except.ok [rowA]
    ∧ queryPredOf "(" = none := by
  have he : filtered ⟨none, none, "("⟩ [rowA]
      = Except.error "missing ), unterminated subpattern" := rfl
  refine ⟨he, ?_, ?_, rfl⟩
  · rw [he]; intro h; exact Except.noConfusion h
  · rw [he]; intro h; exact Except.noConfusion h

/-- C7 (amended): for every record sequence and every combination of
settings whose query step is defined (the query is empty or compiles as a
pattern), the filter pipeline equals a single filter by the conjunction of
the active predicates (the sentinel deactivates the year or location
predicate, an empty query deactivates the query predicate), and its result
is a subsequence of the input in original order. -/
theorem c7_filter_conjunction_subsequence (fl : Filters) (df : List Row)
    (qp : Row → Bool) (h : queryPredOf fl.code_query = some qp) :
    filtered fl df = Except.ok (df.filter (conjunctivePred fl qp))
    ∧ List.Sublist (df.filter (conjunctivePred fl qp)) df := by
  rcases fl with ⟨yf, lf, q⟩
  have hy : applyYear yf df = df.filter (fun r => yearPred yf r) := by
    cases yf <;> simp [applyYear, yearPred]
  have hl : ∀ d : List Row, applyLocation lf d
      = d.filter (fun r => locPred lf r) := by
    intro d; cases lf <;> simp [applyLocation, locPred]
  have hb : ∀ a b c : Bool, (c && b && a) = (a && b && c) := by decide
  have hb2 : ∀ a b : Bool, (b && a) = (a && b && true) := by decide
  have heq : filtered ⟨yf, lf, q⟩ df
      = Except.ok (df.filter (conjunctivePred ⟨yf, lf, q⟩ qp)) := by
    show applyQuery q (applyLocation lf (applyYear yf df)) = _
    unfold queryPredOf at h
    by_cases hq : q = ""
    · rw [if_pos hq] at h
      have hqp : qp = fun _ => true := (Option.some.inj h).symm
      subst hqp
      unfold applyQuery
      rw [if_neg (by simp [hq])]
      congr 1
      rw [hy, hl, List.filter_filter]
      refine List.filter_congr ?_
      intro r _
      exact hb2 _ _
    · rw [if_neg hq] at h
      cases hcomp : pyReCompile (pyLowerStr q) with
      | error e => rw [hcomp] at h; exact absurd h (by simp)
      | ok rx =>
        rw [hcomp] at h
        have hqp : qp = fun r => queryPred rx r := (Option.some.inj h).symm
        subst hqp
        unfold applyQuery
        rw [if_pos hq]
        simp only [hcomp]
        congr 1
        rw [hy, hl, List.filter_filter, List.filter_filter]
        refine List.filter_congr ?_
        intro r _
        exact hb _ _ _
  exact ⟨heq, List.filter_sublist df⟩

theorem c7_filter_conjunction_subsequence_witness :
    queryPredOf "proj"
        = some (fun r => queryPred (litRegex ('p' :: 'r' :: 'o' :: 'j' :: [])) r)
    ∧ (filtered ⟨some 2024, some "NYC", "proj"⟩ [rowA, rowB, rowC]
        = Except.ok ([rowA, rowB, rowC].filter
            (conjunctivePred ⟨some 2024, some "NYC", "proj"⟩
              (fun r => queryPred (litRegex ('p' :: 'r' :: 'o' :: 'j' :: [])) r)))
      ∧ List.Sublist ([rowA, rowB, rowC].filter
            (conjunctivePred ⟨some 2024, some "NYC", "proj"⟩
              (fun r => queryPred (litRegex ('p' :: 'r' :: 'o' :: 'j' :: [])) r)))
          [rowA, rowB, rowC]) :=
  ⟨rfl, c7_filter_conjunction_subsequence ⟨some 2024, some "NYC", "proj"⟩
    [rowA, rowB, rowC] _ rfl⟩

theorem c9_sync_failure_never_blocks_local_save_witness :
    commit_excel_to_github "m" ⟨some "t", some "r", none⟩
        ⟨true, false, false, false⟩ ⟨save_data []⟩
      = (⟨save_data []⟩, [NetOp.getRepo "r"], CommitOutcome.warned)
    ∧ (commit_excel_to_github "m" ⟨some "t", some "r", none⟩
        ⟨true, false, false, false⟩ ⟨save_data []⟩).1 = ⟨save_data []⟩
    ∧ (add_submit ⟨some "t", some "r", none⟩ ⟨true, false, false, false⟩
        [] rowA).1 = [] ++ [rowA]
    ∧ (add_submit ⟨some "t", some "r", none⟩ ⟨true, false, false, false⟩
        [] rowA).2.1.excel_file = save_data ([] ++ [rowA]) :=
  c9_sync_failure_never_blocks_local_save "m" ⟨some "t", some "r", none⟩
    ⟨true, false, false, false⟩ ⟨save_data []⟩ [] rowA [NetOp.getRepo "r"]
    rfl rfl

end ProjectTracker
